import Mathlib

/-!
Shallow embedding of the protocolized-search scraper pipeline
(src/scraper/scrape.py, src/scraper/scrape_all.py,
src/scraper/generate_wordcloud.py).

Python strings are modelled as Lean `String` (a list of characters);
Python `None`-or-value results as `Option`; the injected HTTP fetch
capability as an explicit function argument; `time.sleep` calls as an
accumulated count of slept time units; Python `set` as `Finset`.
-/

set_option maxRecDepth 16384

namespace ProtocolizedSearch

/-- Python `str.lower()` restricted to the ASCII range exercised by this
repository (the boilerplate phrase list and all inputs in the spec's examples
are ASCII). -/
def pyLower (s : String) : String := ⟨s.data.map Char.toLower⟩

/-- Python `str.split()` with no separator argument: split on maximal runs of
whitespace, never producing empty strings.  `cur` is the (reversed) token
currently being read. -/
def pySplitAux : List Char → List Char → List (List Char)
  | [], cur => if cur.isEmpty then [] else [cur.reverse]
  | c :: rest, cur =>
    if c.isWhitespace then
      if cur.isEmpty then pySplitAux rest []
      else cur.reverse :: pySplitAux rest []
    else pySplitAux rest (c :: cur)

/-- Python `s.split()` (no separator). -/
def pySplit (s : List Char) : List (List Char) := pySplitAux s []

/-- Python `str.strip()`: remove leading and trailing whitespace. -/
def pyStrip (s : String) : String :=
  ⟨((s.data.dropWhile Char.isWhitespace).reverse.dropWhile Char.isWhitespace).reverse⟩

/-- Number of whitespace-delimited tokens of a character sequence, written from
the spec's words: the count of maximal runs of non-whitespace characters.  The
boolean argument records whether the previous character belonged to a run. -/
def tokenRuns : List Char → Bool → Nat
  | [], _ => 0
  | c :: rest, inRun =>
    if c.isWhitespace then tokenRuns rest false
    else (if inRun then 0 else 1) + tokenRuns rest true

/-- Python `u.split('?')[0].split('#')[0]`: everything before the first `?`,
then everything before the first `#`. -/
def stripQueryFragment (s : List Char) : List Char :=
  (s.takeWhile (· ≠ '?')).takeWhile (· ≠ '#')

/-- The `self.base_url` both scraper classes are constructed with. -/
def base_url : String := "https://protocolized.summerofprotocols.com"

/-- ProtocolizedScraperEnhanced._make_absolute_url (scrape_all.py lines
181-189).  The same canonicalization is inlined in
ProtocolizedScraper.get_story_urls (scrape.py lines 109-116): absolutize
against base_url when the href does not start with "http", then strip the
query string and fragment. -/
def make_absolute_url (href : String) : String :=
  if "http".data <+: href.data then ⟨stripQueryFragment href.data⟩
  else ⟨stripQueryFragment (base_url.data ++ href.data)⟩

/-- Python `'/p/' in href`: contiguous substring containment. -/
def hasStoryPath (href : String) : Bool := decide ("/p/".data <:+: href.data)

/-- ProtocolizedScraper.get_story_urls (scrape.py lines 92-121), with the HTML
parsing abstracted: `hrefs` is the list of href attribute values collected by
the CSS selectors, in document order.  Every href containing "/p/" is
canonicalized and added to the Python set `links_found`;
`sorted(list(links_found))` is the unique ≤-sorted enumeration of that set,
modelled by `Finset.sort`. -/
def get_story_urls (hrefs : List String) : List String :=
  (((hrefs.filter hasStoryPath).map make_absolute_url).toFinset).sort (· ≤ ·)

/-- Python list slicing `l[:n]` for an arbitrary integer n: the first n
elements when n is non-negative, everything but the last |n| elements
otherwise (clamping at zero). -/
def pySliceTo {α : Type} (n : Int) (l : List α) : List α :=
  if 0 ≤ n then l.take n.toNat else l.take (l.length - (-n).toNat)

/-- The `if self.limit: story_urls = story_urls[:self.limit]` guard shared by
ProtocolizedScraper.scrape_all (scrape.py lines 47-49) and
ProtocolizedScraperEnhanced.scrape_all (scrape_all.py lines 45-47): the cap is
applied only when `self.limit` is truthy, that is, not None and nonzero. -/
def applyLimit {α : Type} (limit : Option Int) (urls : List α) : List α :=
  match limit with
  | none => urls
  | some n => if n = 0 then urls else pySliceTo n urls

/-- The order in which ProtocolizedScraperEnhanced.scrape_all visits story
URLs (scrape_all.py lines 37-63): it iterates the set returned by
get_all_story_urls directly.  Python leaves a set's iteration order
unspecified (it varies with hashing), so `urlsIter` stands for that iteration
order: some enumeration of the discovered set.  No sort is applied, only the
limit guard. -/
def visit_order_enhanced (urlsIter : List String) (limit : Option Int) : List String :=
  applyLimit limit urlsIter

/-- The order in which ProtocolizedScraper.scrape_all visits story URLs
(scrape.py lines 34-65): the sorted list returned by get_story_urls, after the
limit guard. -/
def visit_order_basic (hrefs : List String) (limit : Option Int) : List String :=
  applyLimit limit (get_story_urls hrefs)

/-- What the per-field extractors pull out of one successfully fetched page
(scrape.py lines 136-144): the raw BeautifulSoup document is transient, so the
fetch outcome is modelled directly by the extracted fields. -/
structure Extracted where
  title : String
  subtitle : String
  author : String
  date : String
  tags : List String
  content : List String
deriving DecidableEq

/-- One fully extracted story record (the dict built at scrape.py lines
150-158). -/
structure Article where
  title : String
  subtitle : String
  author : String
  url : String
  date : String
  tags : List String
  content : List String
deriving DecidableEq

/-- The retry loop of scrape_story (scrape.py lines 127-168, scrape_all.py
lines 191-228).  `fetch k` is the outcome of attempt k: none for a transport
error, non-success status or timeout; some e for a fetched page together with
what the extractors produce from it.  `rem` is the number of loop iterations
left (`retries - attempt`).  The second result component accumulates the time
units slept in `time.sleep(2)` backoff calls.  A successful fetch whose
extraction has an empty title or empty content returns None immediately,
without further attempts. -/
def scrapeStoryGo (fetch : Nat → Option Extracted) (url : String) :
    Nat → Nat → Option Article × Nat
  | _, 0 => (none, 0)
  | attempt, rem + 1 =>
    match fetch attempt with
    | some e =>
      if e.title = "" ∨ e.content = [] then (none, 0)
      else (some { title := e.title, subtitle := e.subtitle, author := e.author,
                   url := url, date := e.date, tags := e.tags, content := e.content }, 0)
    | none =>
      if rem = 0 then (none, 0)
      else
        let r := scrapeStoryGo fetch url (attempt + 1) rem
        (r.1, r.2 + 2)

/-- scrape_story with its default of 3 attempts. -/
def scrape_story (fetch : Nat → Option Extracted) (url : String)
    (retries : Nat := 3) : Option Article × Nat :=
  scrapeStoryGo fetch url 0 retries

/-- The story-accumulation loop of scrape_all (scrape.py lines 52-65,
scrape_all.py lines 50-63): scrape_story each visited URL in order and append
the result exactly when it is not None.  `fetch u k` is the outcome of attempt
k for url u. -/
def scrapeAllStories (fetch : String → Nat → Option Extracted)
    (visitOrder : List String) : List Article :=
  visitOrder.filterMap (fun u => (scrape_story (fetch u) u).1)

/-- The boilerplate phrase list of _is_valid_paragraph (identical in scrape.py
lines 274-285 and scrape_all.py lines 321-332). -/
def boilerplate_phrases : List String :=
  ["subscribe now", "share this post", "leave a comment", "get 20% off",
   "upgrade to paid", "become a subscriber", "already a subscriber", "sign in",
   "this post is for", "give a gift subscription"]

/-- _is_valid_paragraph (scrape.py lines 267-297, scrape_all.py lines 316-343,
identical logic): reject text under 20 characters, text whose lowercasing
contains a boilerplate phrase, and text with fewer than 5
whitespace-delimited tokens. -/
def is_valid_paragraph (text : String) : Bool :=
  if text.data.length < 20 then false
  else if boilerplate_phrases.any
      (fun ph => decide (ph.data <:+: (pyLower text).data)) then false
  else if (pySplit text.data).length < 5 then false
  else true

/-- One entry of the search index built by build_index. -/
structure SearchRecord where
  id : Nat
  title : String
  subtitle : String
  author : String
  content : List String
  tags : List String
deriving DecidableEq

/-- One entry of the metadata file built by build_index. -/
structure MetadataRecord where
  id : Nat
  title : String
  subtitle : String
  url : String
  author : String
  date : String
  wordCount : Nat
  tags : List String
deriving DecidableEq

/-- build_index (scrape.py lines 299-328, scrape_all.py lines 345-372): one
`enumerate` pass appending an id-bearing projection of each story to both
output lists, with `wordCount = sum(len(p.split()) for p in story['content'])`.
The single Python loop appending to two lists is modelled as two maps over
`List.enum`. -/
def build_index (stories : List Article) : List SearchRecord × List MetadataRecord :=
  (stories.enum.map (fun p =>
     { id := p.1, title := p.2.title, subtitle := p.2.subtitle,
       author := p.2.author, content := p.2.content, tags := p.2.tags }),
   stories.enum.map (fun p =>
     { id := p.1, title := p.2.title, subtitle := p.2.subtitle, url := p.2.url,
       author := p.2.author, date := p.2.date,
       wordCount := (p.2.content.map (fun q => (pySplit q.data).length)).sum,
       tags := p.2.tags }))

/-- _get_urls_from_archive (scrape_all.py lines 98-127): on fetch failure the
except branch leaves the empty set; on success every collected href containing
"/p/" is canonicalized and added.  `fetched` is none on failure, some hrefs on
success. -/
def urls_from_archive (fetched : Option (List String)) : Finset String :=
  match fetched with
  | none => ∅
  | some hrefs => ((hrefs.filter hasStoryPath).map make_absolute_url).toFinset

/-- _get_urls_from_tag (scrape_all.py lines 129-156): same shape as the
archive source. -/
def urls_from_tag (fetched : Option (List String)) : Finset String :=
  match fetched with
  | none => ∅
  | some hrefs => ((hrefs.filter hasStoryPath).map make_absolute_url).toFinset

/-- _get_urls_from_sitemap (scrape_all.py lines 158-179): loc texts are
stripped of surrounding whitespace and filtered for "/p/", but NOT
canonicalized: no _make_absolute_url call, no query or fragment stripping. -/
def urls_from_sitemap (fetched : Option (List String)) : Finset String :=
  match fetched with
  | none => ∅
  | some locs => ((locs.map pyStrip).filter hasStoryPath).toFinset

/-- get_all_story_urls (scrape_all.py lines 72-96): the union of the three
sources, accumulated with set.update. -/
def get_all_story_urls (archive tag sitemap : Option (List String)) : Finset String :=
  urls_from_archive archive ∪ urls_from_tag tag ∪ urls_from_sitemap sitemap

/-- One output entry of the word cloud generator.  `size` is kept as an exact
rational. -/
structure WordCloudEntry where
  word : String
  count : Nat
  size : ℚ
deriving DecidableEq

/-- Python `round(x, 1)` (round half to even), over exact rationals.  Python
computes on binary floats; on the decimal-exact values reached in this
development the two agree. -/
def pyRound1 (q : ℚ) : ℚ :=
  let t : ℚ := 10 * q
  let r : ℤ :=
    if t - ⌊t⌋ = 1 / 2 then (if ⌊t⌋ % 2 = 0 then ⌊t⌋ else ⌊t⌋ + 1)
    else round t
  (r : ℚ) / 10

/-- The size-scaling stage of analyze_word_frequency (generate_wordcloud.py
lines 128-149).  `top_words` is `word_counts.most_common(50)`: the top-50
(word, count) pairs in descending count order.  As in the code, `max_count` is
`top_words[0][1]` when the list is non-empty and 1 otherwise, and `min_count`
is `top_words[-1][1]` when the list has more than one element and 1
otherwise. -/
def word_cloud_data (top_words : List (String × Nat)) : List WordCloudEntry :=
  let max_count : ℚ := ((top_words.head?.map Prod.snd).getD 1 : Nat)
  let min_count : ℚ :=
    if 1 < top_words.length then ((top_words.getLast?.map Prod.snd).getD 1 : Nat) else 1
  top_words.map (fun p =>
    let size : ℚ :=
      if max_count = min_count then 3
      else 1 + 4 * ((p.2 : ℚ) - min_count) / (max_count - min_count)
    { word := p.1, count := p.2, size := pyRound1 size })

/-! Helper lemmas (shared; none of them is a claim theorem). -/

theorem mem_stripQueryFragment {c : Char} {s : List Char}
    (h : c ∈ stripQueryFragment s) : c ≠ '?' ∧ c ≠ '#' := by
  unfold stripQueryFragment at h
  have h2 : c ≠ '#' := by
    have := List.mem_takeWhile_imp h
    simpa using this
  have h1 : c ≠ '?' := by
    have hmem : c ∈ s.takeWhile (· ≠ '?') :=
      (List.takeWhile_sublist _).mem h
    have := List.mem_takeWhile_imp hmem
    simpa using this
  exact ⟨h1, h2⟩

theorem stripQueryFragment_eq_self {s : List Char}
    (h1 : '?' ∉ s) (h2 : '#' ∉ s) : stripQueryFragment s = s := by
  unfold stripQueryFragment
  have e1 : s.takeWhile (· ≠ '?') = s := by
    rw [List.takeWhile_eq_self_iff]
    intro x hx
    simp only [decide_eq_true_eq]
    intro hq; exact h1 (hq ▸ hx)
  rw [e1, List.takeWhile_eq_self_iff]
  intro x hx
  simp only [decide_eq_true_eq]
  intro hq; exact h2 (hq ▸ hx)

theorem stripQueryFragment_idem (s : List Char) :
    stripQueryFragment (stripQueryFragment s) = stripQueryFragment s :=
  stripQueryFragment_eq_self (fun h => (mem_stripQueryFragment h).1 rfl)
    (fun h => (mem_stripQueryFragment h).2 rfl)

theorem takeWhile_append_of_all {p : Char → Bool} {a b : List Char}
    (h : ∀ x ∈ a, p x = true) :
    List.takeWhile p (a ++ b) = a ++ List.takeWhile p b := by
  have ha : List.takeWhile p a = a := List.takeWhile_eq_self_iff.mpr h
  rw [List.takeWhile_append, ha]
  simp

theorem stripQueryFragment_append_of_clean {a b : List Char}
    (h1 : '?' ∉ a) (h2 : '#' ∉ a) :
    stripQueryFragment (a ++ b) = a ++ stripQueryFragment b := by
  unfold stripQueryFragment
  rw [takeWhile_append_of_all (p := (· ≠ '?'))
        (fun x hx => by simp only [decide_eq_true_eq]; intro hq; exact h1 (hq ▸ hx)),
      takeWhile_append_of_all (p := (· ≠ '#'))
        (fun x hx => by simp only [decide_eq_true_eq]; intro hq; exact h2 (hq ▸ hx))]

theorem base_url_clean : '?' ∉ base_url.data ∧ '#' ∉ base_url.data := by decide

theorem http_clean : '?' ∉ "http".data ∧ '#' ∉ "http".data := by decide

/-- The canonicalizer's output always starts with "http". -/
theorem make_absolute_url_starts_http (u : String) :
    "http".data <+: (make_absolute_url u).data := by
  unfold make_absolute_url
  by_cases h : "http".data <+: u.data
  · rw [if_pos h]
    obtain ⟨t, ht⟩ := h
    show "http".data <+: stripQueryFragment u.data
    rw [← ht, stripQueryFragment_append_of_clean http_clean.1 http_clean.2]
    exact ⟨_, rfl⟩
  · rw [if_neg h]
    show "http".data <+: stripQueryFragment (base_url.data ++ u.data)
    rw [stripQueryFragment_append_of_clean base_url_clean.1 base_url_clean.2]
    exact (by decide : "http".data <+: base_url.data).trans ⟨_, rfl⟩

/-- The canonicalizer's output never contains a query or fragment character. -/
theorem make_absolute_url_clean (u : String) :
    ∀ c ∈ (make_absolute_url u).data, c ≠ '?' ∧ c ≠ '#' := by
  intro c hc
  unfold make_absolute_url at hc
  by_cases h : "http".data <+: u.data
  · rw [if_pos h] at hc
    exact mem_stripQueryFragment hc
  · rw [if_neg h] at hc
    exact mem_stripQueryFragment hc

/-- A string that already starts with "http" and carries no query or fragment
character is a fixed point of the canonicalizer. -/
theorem make_absolute_url_fixed {s : String} (hstart : "http".data <+: s.data)
    (hq : '?' ∉ s.data) (hf : '#' ∉ s.data) : make_absolute_url s = s := by
  have hself := stripQueryFragment_eq_self hq hf
  unfold make_absolute_url
  rw [if_pos hstart]
  cases s with
  | mk d => exact congrArg String.mk hself

theorem make_absolute_url_idem (u : String) :
    make_absolute_url (make_absolute_url u) = make_absolute_url u := by
  have hclean := make_absolute_url_clean u
  exact make_absolute_url_fixed (make_absolute_url_starts_http u)
    (fun h => (hclean _ h).1 rfl) (fun h => (hclean _ h).2 rfl)

/-- Length invariant of the split accumulator: the number of tokens produced
is the number of maximal non-whitespace runs still ahead, plus one for a
pending partial token. -/
theorem pySplitAux_length (s : List Char) :
    ∀ cur : List Char,
      (pySplitAux s cur).length =
        tokenRuns s (!cur.isEmpty) + (if cur.isEmpty then 0 else 1) := by
  induction s with
  | nil =>
    intro cur
    by_cases h : cur.isEmpty <;> simp [pySplitAux, tokenRuns, h]
  | cons c rest ih =>
    intro cur
    by_cases hw : c.isWhitespace
    · by_cases h : cur.isEmpty <;>
        simp [pySplitAux, tokenRuns, hw, h, ih []]
    · by_cases h : cur.isEmpty <;>
        · simp [pySplitAux, tokenRuns, hw, h, ih (c :: cur)]
          try omega

/-- Python `len(s.split())` counts the maximal non-whitespace runs of s. -/
theorem pySplit_length (s : List Char) :
    (pySplit s).length = tokenRuns s false := by
  simpa [pySplit] using pySplitAux_length s []

/-- When every consulted attempt fails, the retry loop returns None and sleeps
2 time units between consecutive attempts: never after the last one. -/
theorem scrapeStoryGo_all_fail (fetch : Nat → Option Extracted) (url : String) :
    ∀ (rem attempt : Nat), (∀ k, k < attempt + rem → fetch k = none) →
      scrapeStoryGo fetch url attempt rem = (none, 2 * (rem - 1)) := by
  intro rem
  induction rem with
  | zero => intro attempt _; simp [scrapeStoryGo]
  | succ n ih =>
    intro attempt hf
    have h0 : fetch attempt = none := hf attempt (by omega)
    by_cases hn : n = 0
    · subst hn; simp [scrapeStoryGo, h0]
    · have hrec := ih (attempt + 1) (fun k hk => hf k (by omega))
      simp only [scrapeStoryGo, h0, if_neg hn, hrec]
      refine Prod.ext rfl ?_
      show 2 * (n - 1) + 2 = 2 * (n + 1 - 1)
      omega

/-- Any article the retry loop returns has a non-empty title and non-empty
content: extractions missing either are discarded. -/
theorem scrapeStoryGo_valid (fetch : Nat → Option Extracted) (url : String) :
    ∀ (rem attempt : Nat) (a : Article),
      (scrapeStoryGo fetch url attempt rem).1 = some a →
      a.title ≠ "" ∧ a.content ≠ [] := by
  intro rem
  induction rem with
  | zero => intro attempt a h; simp [scrapeStoryGo] at h
  | succ n ih =>
    intro attempt a h
    cases hf : fetch attempt with
    | some e =>
      simp only [scrapeStoryGo, hf] at h
      by_cases hv : e.title = "" ∨ e.content = []
      · rw [if_pos hv] at h; simp at h
      · rw [if_neg hv] at h
        simp only [Option.some.injEq] at h
        push_neg at hv
        subst h
        exact ⟨hv.1, hv.2⟩
    | none =>
      simp only [scrapeStoryGo, hf] at h
      by_cases hn : n = 0
      · rw [if_pos hn] at h; simp at h
      · rw [if_neg hn] at h
        exact ih (attempt + 1) a h

/-- In a list sorted by descending count, the head carries the largest count
and the last element the smallest. -/
theorem sorted_desc_head_last :
    ∀ (l : List (String × Nat)),
      l.Sorted (fun p q => q.2 ≤ p.2) → ∀ (hne : l ≠ []),
      ∀ p ∈ l, p.2 ≤ (l.head hne).2 ∧ (l.getLast hne).2 ≤ p.2 := by
  intro l
  induction l with
  | nil => intro _ hne; exact absurd rfl hne
  | cons a t ih =>
    intro hs hne p hp
    have hrel : ∀ b ∈ t, b.2 ≤ a.2 := List.rel_of_sorted_cons hs
    by_cases ht : t = []
    · subst ht
      have hpa : p = a := by simpa using hp
      subst hpa
      exact ⟨le_rfl, le_rfl⟩
    · have hlast : (a :: t).getLast hne = t.getLast ht := List.getLast_cons ht
      rcases List.mem_cons.mp hp with h | h
      · subst h
        exact ⟨le_rfl, by rw [hlast]; exact hrel _ (List.getLast_mem ht)⟩
      · exact ⟨hrel p h, by rw [hlast]; exact (ih hs.of_cons ht p h).2⟩

/-- If the first `d` attempts fail and attempt `d` succeeds with a valid
extraction, the retry loop returns the article after sleeping 2 units per
failed attempt. -/
theorem scrapeStoryGo_first_success (fetch : Nat → Option Extracted) (url : String)
    (e : Extracted) (hv : ¬(e.title = "" ∨ e.content = [])) :
    ∀ (d rem attempt : Nat), d < rem →
      (∀ j, j < d → fetch (attempt + j) = none) →
      fetch (attempt + d) = some e →
      scrapeStoryGo fetch url attempt rem =
        (some { title := e.title, subtitle := e.subtitle, author := e.author,
                url := url, date := e.date, tags := e.tags, content := e.content },
         2 * d) := by
  intro d
  induction d with
  | zero =>
    intro rem attempt hd hj hs
    obtain ⟨m, rfl⟩ : ∃ m, rem = m + 1 := ⟨rem - 1, by omega⟩
    simp only [Nat.add_zero] at hs
    simp [scrapeStoryGo, hs, hv]
  | succ n ih =>
    intro rem attempt hd hj hs
    obtain ⟨m, rfl⟩ : ∃ m, rem = m + 1 := ⟨rem - 1, by omega⟩
    have h0 : fetch attempt = none := by simpa using hj 0 (by omega)
    have hm : m ≠ 0 := by omega
    have hrec := ih m (attempt + 1) (by omega)
      (fun j hjn => by
        rw [show attempt + 1 + j = attempt + (j + 1) from by omega]
        exact hj (j + 1) (by omega))
      (by
        rw [show attempt + 1 + n = attempt + (n + 1) from by omega]
        exact hs)
    simp only [scrapeStoryGo, h0, if_neg hm, hrec]
    refine Prod.ext rfl ?_
    show 2 * n + 2 = 2 * (n + 1)
    omega

/-- A successful retry-loop result originates from an attempt whose extraction
passed the non-empty-title and non-empty-content check. -/
theorem scrapeStoryGo_some_attempt (fetch : Nat → Option Extracted) (url : String) :
    ∀ (rem attempt : Nat) (a : Article),
      (scrapeStoryGo fetch url attempt rem).1 = some a →
      ∃ k e, fetch k = some e ∧ ¬(e.title = "" ∨ e.content = []) := by
  intro rem
  induction rem with
  | zero => intro attempt a h; simp [scrapeStoryGo] at h
  | succ n ih =>
    intro attempt a h
    cases hf : fetch attempt with
    | some e =>
      simp only [scrapeStoryGo, hf] at h
      by_cases hv : e.title = "" ∨ e.content = []
      · rw [if_pos hv] at h; simp at h
      · exact ⟨attempt, e, hf, hv⟩
    | none =>
      simp only [scrapeStoryGo, hf] at h
      by_cases hn : n = 0
      · rw [if_pos hn] at h; simp at h
      · rw [if_neg hn] at h
        exact ih (attempt + 1) a h

theorem pyRound1_one : pyRound1 1 = 1 := by norm_num [pyRound1, round_eq]

theorem pyRound1_three : pyRound1 3 = 3 := by norm_num [pyRound1, round_eq]

theorem pyRound1_five : pyRound1 5 = 5 := by norm_num [pyRound1, round_eq]

theorem pyRound1_fifteen_sevenths : pyRound1 (15 / 7) = 21 / 10 := by
  norm_num [pyRound1, round_eq]

/-! Claim theorems. -/

/-- Claim C7: URL canonicalization is idempotent — for every URL string u,
canonicalize (canonicalize u) equals canonicalize u — and its output never
contains a query character or a fragment character, hence no query or
fragment suffix. -/
theorem claim_c7_canonicalize (u : String) :
    make_absolute_url (make_absolute_url u) = make_absolute_url u ∧
    ∀ c ∈ (make_absolute_url u).data, c ≠ '?' ∧ c ≠ '#' :=
  ⟨make_absolute_url_idem u, make_absolute_url_clean u⟩

/-- Witness for C7 at the concrete href "/p/x?a#b". -/
theorem claim_c7_canonicalize_w :
    make_absolute_url (make_absolute_url "/p/x?a#b") = make_absolute_url "/p/x?a#b" ∧
    ('p' ≠ '?' ∧ 'p' ≠ '#') :=
  ⟨(claim_c7_canonicalize "/p/x?a#b").1,
   (claim_c7_canonicalize "/p/x?a#b").2 'p' (by decide)⟩

/-- Claim C10: a limit of 0 is falsy in Python, so the cap is treated as
absent: the visit order is the full discovered URL list, exactly as with no
limit. -/
theorem claim_c10_limit_zero (urls hrefs : List String) :
    applyLimit (some 0) urls = urls ∧
    visit_order_enhanced urls (some 0) = visit_order_enhanced urls none ∧
    visit_order_basic hrefs (some 0) = get_story_urls hrefs :=
  ⟨rfl, rfl, rfl⟩

/-- Claim C4: build_index assigns ids by 0-based position in the input order
in both output sequences, and both outputs have the same length as the
input. -/
theorem claim_c4_build_index_ids (A : List Article) (i : Nat) (hi : i < A.length)
    (h1 : i < (build_index A).1.length) (h2 : i < (build_index A).2.length) :
    (build_index A).1.length = A.length ∧
    (build_index A).2.length = A.length ∧
    ((build_index A).1.get ⟨i, h1⟩).id = i ∧
    ((build_index A).2.get ⟨i, h2⟩).id = i := by
  refine ⟨by simp [build_index], by simp [build_index], ?_, ?_⟩ <;>
    simp [build_index, List.get_eq_getElem, List.getElem_map, List.getElem_enum]

/-- Witness for C4 on a two-article list at position 1. -/
theorem claim_c4_build_index_ids_w :
    (build_index [⟨"A", "", "x", "u", "", [], ["c"]⟩,
                  ⟨"B", "", "y", "v", "", [], ["d"]⟩]).1.length = 2 ∧
    (build_index [⟨"A", "", "x", "u", "", [], ["c"]⟩,
                  ⟨"B", "", "y", "v", "", [], ["d"]⟩]).2.length = 2 ∧
    ((build_index [⟨"A", "", "x", "u", "", [], ["c"]⟩,
                   ⟨"B", "", "y", "v", "", [], ["d"]⟩]).1.get ⟨1, by decide⟩).id = 1 ∧
    ((build_index [⟨"A", "", "x", "u", "", [], ["c"]⟩,
                   ⟨"B", "", "y", "v", "", [], ["d"]⟩]).2.get ⟨1, by decide⟩).id = 1 :=
  claim_c4_build_index_ids _ 1 (by decide) (by decide) (by decide)

/-- Claim C9: each metadata record's wordCount is the sum, over the article's
content paragraphs, of the number of whitespace-delimited tokens in the
paragraph; the Article with content ["one two three", "four five"] gets
wordCount 5. -/
theorem claim_c9_word_count (A : List Article) (i : Nat) (hi : i < A.length)
    (h2 : i < (build_index A).2.length) :
    ((build_index A).2.get ⟨i, h2⟩).wordCount =
      ((A.get ⟨i, hi⟩).content.map (fun p => tokenRuns p.data false)).sum ∧
    (build_index [⟨"T", "", "a", "u", "", [],
        ["one two three", "four five"]⟩]).2.map MetadataRecord.wordCount = [5] := by
  constructor
  · simp [build_index, List.get_eq_getElem, List.getElem_map, List.getElem_enum,
      pySplit_length]
  · decide

/-- Witness for C9 on a one-article list at position 0. -/
theorem claim_c9_word_count_w :
    ((build_index [⟨"T", "", "a", "u", "", [],
        ["one two three", "four five"]⟩]).2.get ⟨0, by decide⟩).wordCount =
      (([(⟨"T", "", "a", "u", "", [],
          ["one two three", "four five"]⟩ : Article)].get ⟨0, by decide⟩).content.map
        (fun p => tokenRuns p.data false)).sum ∧
    (build_index [⟨"T", "", "a", "u", "", [],
        ["one two three", "four five"]⟩]).2.map MetadataRecord.wordCount = [5] :=
  claim_c9_word_count _ 0 (by decide) (by decide)

/-- Claim C3: scrape_story attempts the fetch up to `retries` times (the
parameter defaults to 3 in `scrape_story`), sleeps a fixed 2-unit backoff
between failed attempts but not after the last (all-fail total backoff is
2 * (retries − 1), so 3 failures wait the interval exactly twice), returns
None after exhausting all attempts, and a fetch that fails twice and then
succeeds on the third of 3 attempts with a valid extraction returns the
article. -/
theorem claim_c3_retry (fetch : Nat → Option Extracted) (url : String)
    (retries : Nat) (e : Extracted) (he : e.title ≠ "" ∧ e.content ≠ []) :
    ((∀ k, k < retries → fetch k = none) →
      scrape_story fetch url retries = (none, 2 * (retries - 1))) ∧
    (fetch 0 = none → fetch 1 = none → fetch 2 = some e →
      scrape_story fetch url 3 =
        (some { title := e.title, subtitle := e.subtitle, author := e.author,
                url := url, date := e.date, tags := e.tags, content := e.content },
         2 * 2)) := by
  constructor
  · intro hf
    exact scrapeStoryGo_all_fail fetch url retries 0 (by simpa using hf)
  · intro h0 h1 h2
    refine scrapeStoryGo_first_success fetch url e (not_or.mpr he) 2 3 0 (by omega)
      (fun j hj => ?_) (by simpa using h2)
    match j, hj with
    | 0, _ => simpa using h0
    | 1, _ => simpa using h1

/-- Witness for C3: an always-failing fetch exhausts 3 attempts and sleeps
twice; a fetch failing twice then succeeding returns the article. -/
theorem claim_c3_retry_w :
    scrape_story (fun _ => none) "u" 3 = (none, 2 * (3 - 1)) ∧
    scrape_story
        (fun k => if k = 2 then some ⟨"T", "", "A", "", [], ["body text"]⟩ else none)
        "u" 3 =
      (some ⟨"T", "", "A", "u", "", [], ["body text"]⟩, 2 * 2) :=
  ⟨(claim_c3_retry (fun _ => none) "u" 3 ⟨"T", "", "A", "", [], ["body text"]⟩
      ⟨by decide, by decide⟩).1 (fun k _ => rfl),
   (claim_c3_retry (fun k => if k = 2 then some ⟨"T", "", "A", "", [], ["body text"]⟩ else none)
      "u" 3 ⟨"T", "", "A", "", [], ["body text"]⟩
      ⟨by decide, by decide⟩).2 (by decide) (by decide) (by decide)⟩

/-- Claim C5: every Article appended to the run's accumulated list has a
non-empty title and non-empty content, and an extraction step yielding only
empty titles or empty content lists makes the per-URL step return None, so
such extractions are never persisted. -/
theorem claim_c5_valid_articles (fetch : String → Nat → Option Extracted)
    (urls : List String) (a : Article)
    (ha : a ∈ scrapeAllStories fetch urls)
    (g : Nat → Option Extracted) (u : String) (retries : Nat)
    (hg : ∀ k e, g k = some e → e.title = "" ∨ e.content = []) :
    (a.title ≠ "" ∧ a.content ≠ []) ∧ (scrape_story g u retries).1 = none := by
  constructor
  · obtain ⟨v, hv, hsome⟩ := List.mem_filterMap.mp ha
    exact scrapeStoryGo_valid (fetch v) v 3 0 a hsome
  · cases hres : (scrape_story g u retries).1 with
    | none => rfl
    | some b =>
      obtain ⟨k, e, hke, hval⟩ := scrapeStoryGo_some_attempt g u retries 0 b hres
      exact absurd (hg k e hke) hval

/-- Witness for C5 at concrete inputs: one valid scraped article, and an
always-empty-title extraction that is discarded. -/
theorem claim_c5_valid_articles_w :
    ((⟨"T", "", "A", "u", "", [], ["body text"]⟩ : Article).title ≠ "" ∧
     (⟨"T", "", "A", "u", "", [], ["body text"]⟩ : Article).content ≠ []) ∧
    (scrape_story (fun _ => some ⟨"", "", "A", "", [], ["body text"]⟩) "v" 3).1 = none :=
  claim_c5_valid_articles
    (fun _ _ => some ⟨"T", "", "A", "", [], ["body text"]⟩) ["u"]
    ⟨"T", "", "A", "u", "", [], ["body text"]⟩
    (by decide)
    (fun _ => some ⟨"", "", "A", "", [], ["body text"]⟩) "v" 3
    (fun k e h => by cases h; exact Or.inl rfl)

/-- Claim C8: the boilerplate classifier accepts exactly the texts with at
least 20 characters, no boilerplate phrase as a case-insensitive substring,
and at least 5 whitespace-delimited tokens; it rejects the two concrete
boilerplate examples and accepts the concrete genuine sentence. -/
theorem claim_c8_boilerplate (text : String) :
    (is_valid_paragraph text = true ↔
      (20 ≤ text.data.length ∧
       (∀ ph ∈ boilerplate_phrases, ¬ ph.data <:+: (pyLower text).data) ∧
       5 ≤ tokenRuns text.data false)) ∧
    is_valid_paragraph "Subscribe now to get full access" = false ∧
    is_valid_paragraph "ok" = false ∧
    is_valid_paragraph
      "This is a genuinely long sentence about protocols and norms." = true := by
  refine ⟨?_, by decide, by decide, by decide⟩
  unfold is_valid_paragraph
  split_ifs with h1 h2 h3
  · simp only [Bool.false_eq_true, false_iff]
    rintro ⟨hlen, -, -⟩
    omega
  · simp only [Bool.false_eq_true, false_iff]
    rintro ⟨-, hph, -⟩
    obtain ⟨ph, hmem, hd⟩ := List.any_eq_true.mp h2
    exact hph ph hmem (of_decide_eq_true hd)
  · simp only [Bool.false_eq_true, false_iff]
    rw [pySplit_length] at h3
    rintro ⟨-, -, htok⟩
    omega
  · rw [pySplit_length] at h3
    refine ⟨fun _ => ⟨by omega, ?_, by omega⟩, fun _ => rfl⟩
    intro ph hmem hinf
    exact h2 (List.any_eq_true.mpr ⟨ph, hmem, decide_eq_true hinf⟩)

/-- Witness for C8: the concrete classifications extracted through the claim
theorem. -/
theorem claim_c8_boilerplate_w :
    is_valid_paragraph "ok" = false ∧
    is_valid_paragraph
      "This is a genuinely long sentence about protocols and norms." = true :=
  ⟨(claim_c8_boilerplate "ok").2.2.1, (claim_c8_boilerplate "ok").2.2.2⟩

/-- Claim C1 fails on the enhanced orchestrator: scrape_all in scrape_all.py
iterates the discovered set in the set's iteration order, which Python leaves
unspecified, without sorting.  Two runs over the same discovered set can
therefore visit the URLs in different sequences, and the visit order need not
be lexicographically sorted. -/
theorem claim_c1_counterexample :
    (["https://protocolized.summerofprotocols.com/p/beta",
      "https://protocolized.summerofprotocols.com/p/alpha"] : List String).toFinset =
      (["https://protocolized.summerofprotocols.com/p/alpha",
        "https://protocolized.summerofprotocols.com/p/beta"] : List String).toFinset ∧
    visit_order_enhanced
        ["https://protocolized.summerofprotocols.com/p/beta",
         "https://protocolized.summerofprotocols.com/p/alpha"] none ≠
      visit_order_enhanced
        ["https://protocolized.summerofprotocols.com/p/alpha",
         "https://protocolized.summerofprotocols.com/p/beta"] none ∧
    ¬ (visit_order_enhanced
        ["https://protocolized.summerofprotocols.com/p/beta",
         "https://protocolized.summerofprotocols.com/p/alpha"] none).Sorted (· ≤ ·) := by
  refine ⟨by decide, by decide, fun hs => ?_⟩
  have hle := List.rel_of_sorted_cons hs
    "https://protocolized.summerofprotocols.com/p/alpha" (by simp)
  rw [String.le_iff_toList_le] at hle
  exact absurd hle (by decide)

/-- Claim C1 amended: the basic scraper (scrape.py) sorts the deduplicated
canonical URL set lexicographically in get_story_urls, so its visit sequence
is a sorted, duplicate-free list determined by the discovered set alone: two
runs discovering the same set visit the same sequence.  The enhanced scraper
(scrape_all.py) imposes no order on the discovered set. -/
theorem claim_c1_amended (h1 h2 : List String)
    (hset : ((h1.filter hasStoryPath).map make_absolute_url).toFinset =
            ((h2.filter hasStoryPath).map make_absolute_url).toFinset) :
    get_story_urls h1 = get_story_urls h2 ∧
    (get_story_urls h1).Sorted (· ≤ ·) ∧
    (get_story_urls h1).Nodup := by
  refine ⟨?_, Finset.sort_sorted _ _, Finset.sort_nodup _ _⟩
  unfold get_story_urls
  rw [hset]

/-- Witness for C1 (amended) on href lists whose canonical URL sets agree. -/
theorem claim_c1_amended_w :
    get_story_urls ["/p/a?x", "/p/a#y", "/p/b"] = get_story_urls ["/p/b?z", "/p/a"] ∧
    (get_story_urls ["/p/a?x", "/p/a#y", "/p/b"]).Sorted (· ≤ ·) ∧
    (get_story_urls ["/p/a?x", "/p/a#y", "/p/b"]).Nodup :=
  claim_c1_amended ["/p/a?x", "/p/a#y", "/p/b"] ["/p/b?z", "/p/a"] (by decide)

/-- Claim C6 fails on its canonicality part: _get_urls_from_sitemap adds loc
texts without canonicalization, so a sitemap loc carrying a query string
enters the discovered set unchanged — the set then contains a member that is
not a canonical URL (canonicalizing it changes it, and it contains a query
character). -/
theorem claim_c6_counterexample :
    "https://protocolized.summerofprotocols.com/p/a?share=1" ∈
      get_all_story_urls none none
        (some ["https://protocolized.summerofprotocols.com/p/a?share=1"]) ∧
    make_absolute_url "https://protocolized.summerofprotocols.com/p/a?share=1" ≠
      "https://protocolized.summerofprotocols.com/p/a?share=1" ∧
    '?' ∈ "https://protocolized.summerofprotocols.com/p/a?share=1".data :=
  ⟨by decide, by decide, by decide⟩

/-- Claim C6 amended: discovery is the deduplicating union of the three
sources and a failed source contributes the empty set; archive and tag
contributions are canonical (fixed points of the canonicalizer), while
sitemap entries are only whitespace-stripped and filtered for "/p/"; with tag
URLs {A, B}, archive URLs {B, C} and an errored sitemap, the discovered set is
exactly {A, B, C}. -/
theorem claim_c6_amended (archive tag : Option (List String)) (u : String)
    (hu : u ∈ urls_from_archive archive ∪ urls_from_tag tag) :
    get_all_story_urls archive tag none =
      urls_from_archive archive ∪ urls_from_tag tag ∧
    urls_from_archive none = ∅ ∧ urls_from_tag none = ∅ ∧
    urls_from_sitemap none = ∅ ∧
    make_absolute_url u = u ∧
    get_all_story_urls (some ["/p/b", "/p/c"]) (some ["/p/a", "/p/b"]) none =
      {"https://protocolized.summerofprotocols.com/p/a",
       "https://protocolized.summerofprotocols.com/p/b",
       "https://protocolized.summerofprotocols.com/p/c"} := by
  refine ⟨?_, rfl, rfl, rfl, ?_, by decide⟩
  · simp [get_all_story_urls, urls_from_sitemap]
  · have key : ∀ (hrefs : List String),
        u ∈ ((hrefs.filter hasStoryPath).map make_absolute_url).toFinset →
        make_absolute_url u = u := by
      intro hrefs hmem
      obtain ⟨v, hv, rfl⟩ := List.mem_map.mp (List.mem_toFinset.mp hmem)
      exact make_absolute_url_idem v
    rcases Finset.mem_union.mp hu with h | h
    · cases archive with
      | none => simp [urls_from_archive] at h
      | some hrefs => exact key hrefs (by simpa [urls_from_archive] using h)
    · cases tag with
      | none => simp [urls_from_tag] at h
      | some hrefs => exact key hrefs (by simpa [urls_from_tag] using h)

/-- Witness for C6 (amended) at a concrete archive source whose href carries a
query string. -/
theorem claim_c6_amended_w :
    urls_from_sitemap none = ∅ ∧
    make_absolute_url "https://protocolized.summerofprotocols.com/p/x" =
      "https://protocolized.summerofprotocols.com/p/x" := by
  have h := claim_c6_amended (some ["/p/x?q"]) none
    "https://protocolized.summerofprotocols.com/p/x" (by decide)
  exact ⟨h.2.2.2.1, h.2.2.2.2.1⟩

/-- Claim C2 fails as stated: a single top-50 entry with count 2 receives
size 5, not 3, because the code substitutes the constant 1 — not the entry's
own count — for min_count whenever the list has at most one element; and
stored sizes are rounded to one decimal, so the entry with count 3 among
counts [8, 3, 1] gets size 21/10 rather than the exact 1 + 4*(3−1)/(8−1)
= 15/7. -/
theorem claim_c2_counterexample :
    word_cloud_data [("story", 2)] =
      [{ word := "story", count := 2, size := 5 }] ∧
    (5 : ℚ) ≠ 3 ∧
    (word_cloud_data [("alpha", 8), ("beta", 3), ("gamma", 1)]).map
      WordCloudEntry.size = [5, 21 / 10, 1] ∧
    (21 / 10 : ℚ) ≠ 1 + 4 * ((3 : ℚ) - 1) / ((8 : ℚ) - 1) := by
  refine ⟨?_, by norm_num, ?_, by norm_num⟩
  · norm_num [word_cloud_data, pyRound1_five]
  · norm_num [word_cloud_data, pyRound1_five, pyRound1_one, pyRound1_fifteen_sevenths]

/-- Claim C2 amended: over the non-empty, descending top-50 list the head and
last counts are the largest and smallest counts; with at least two entries,
every entry's size is round(1 + 4*(count − min)/(max − min), 1 decimal) when
max ≠ min and 3 when max = min; a single entry is scaled against a min of 1,
giving size 3 when its count is 1 and size 5 otherwise; counts [10, 10, 5]
yield sizes [5, 5, 1]. -/
theorem claim_c2_amended (tw : List (String × Nat)) (hne : tw ≠ [])
    (hsor : tw.Sorted (fun p q => q.2 ≤ p.2))
    (p : String × Nat) (hp : p ∈ tw) (e : WordCloudEntry)
    (he : e ∈ word_cloud_data tw) :
    (p.2 ≤ (tw.head hne).2 ∧ (tw.getLast hne).2 ≤ p.2) ∧
    (2 ≤ tw.length → (tw.head hne).2 = (tw.getLast hne).2 → e.size = 3) ∧
    (2 ≤ tw.length → (tw.head hne).2 ≠ (tw.getLast hne).2 →
      e.size = pyRound1 (1 + 4 * ((e.count : ℚ) - ((tw.getLast hne).2 : ℚ)) /
        (((tw.head hne).2 : ℚ) - ((tw.getLast hne).2 : ℚ)))) ∧
    (tw.length = 1 → e.size = if e.count = 1 then 3 else 5) ∧
    (word_cloud_data [("a", 10), ("b", 10), ("c", 5)]).map
      WordCloudEntry.size = [5, 5, 1] := by
  have hhead : tw.head? = some (tw.head hne) := List.head?_eq_head hne
  have hlastq : tw.getLast? = some (tw.getLast hne) := List.getLast?_eq_getLast tw hne
  simp only [word_cloud_data, hhead, hlastq, Option.map_some', Option.getD_some] at he
  obtain ⟨q, hq, rfl⟩ := List.mem_map.mp he
  refine ⟨sorted_desc_head_last tw hsor hne p hp, ?_, ?_, ?_, ?_⟩
  · intro hlen heq
    have h1lt : 1 < tw.length := by omega
    dsimp only
    simp only [if_pos h1lt]
    rw [if_pos (show ((tw.head hne).2 : ℚ) = ((tw.getLast hne).2 : ℚ) by
      exact_mod_cast heq)]
    exact pyRound1_three
  · intro hlen hne2
    have h1lt : 1 < tw.length := by omega
    dsimp only
    simp only [if_pos h1lt]
    rw [if_neg (show ¬ ((tw.head hne).2 : ℚ) = ((tw.getLast hne).2 : ℚ) by
      exact_mod_cast hne2)]
  · intro hlen1
    obtain ⟨x, rfl⟩ := List.length_eq_one.mp hlen1
    have hqx : q = x := by simpa using hq
    subst hqx
    dsimp only
    rw [if_neg (show ¬ (1 : Nat) < ([q] : List (String × Nat)).length by simp)]
    simp only [List.head_cons]
    by_cases hc : q.2 = 1
    · rw [if_pos (show ((q.2 : ℚ)) = 1 by exact_mod_cast hc), if_pos hc]
      exact pyRound1_three
    · rw [if_neg (show ¬ ((q.2 : ℚ)) = 1 by exact_mod_cast hc), if_neg hc]
      have hz : ((q.2 : ℚ) - 1) ≠ 0 :=
        sub_ne_zero.mpr (by exact_mod_cast hc)
      rw [mul_div_assoc, div_self hz, mul_one]
      norm_num [pyRound1_five]
  · norm_num [word_cloud_data, pyRound1_five, pyRound1_one]

/-- Witness for C2 (amended) on the descending list [("x", 4), ("y", 2)] and
its first output entry. -/
theorem claim_c2_amended_w :
    ({ word := "x", count := 4, size := 5 } : WordCloudEntry).size =
      pyRound1 (1 + 4 * ((({ word := "x", count := 4, size := 5 } :
          WordCloudEntry).count : ℚ) - ((2 : Nat) : ℚ)) /
        (((4 : Nat) : ℚ) - ((2 : Nat) : ℚ))) ∧
    (word_cloud_data [("a", 10), ("b", 10), ("c", 5)]).map
      WordCloudEntry.size = [5, 5, 1] := by
  have hmem : ({ word := "x", count := 4, size := 5 } : WordCloudEntry) ∈
      word_cloud_data [("x", 4), ("y", 2)] := by
    have heval : word_cloud_data [("x", 4), ("y", 2)] =
        [{ word := "x", count := 4, size := 5 },
         { word := "y", count := 2, size := 1 }] := by
      norm_num [word_cloud_data, pyRound1_five, pyRound1_one]
    rw [heval]
    simp
  have h := claim_c2_amended [("x", 4), ("y", 2)] (by decide) (by decide)
    ("x", 4) (by decide) { word := "x", count := 4, size := 5 } hmem
  exact ⟨h.2.2.1 (by decide) (by decide), h.2.2.2.2⟩

end ProtocolizedSearch
